import Mathlib

/-!
Shallow embedding of the OneDrive document-retrieval pipeline
(backend/retriever.py, backend/main.py, backend/embed.py,
backend/ingest_onedrive.py, backend/extract_answers_smart.py,
backend/onedrive_client.py), with theorems checking the specification
against the embedded code.
-/

namespace ODR

/-! ## Errors and HTTP responses (backend/main.py)

Python exceptions relevant to the query path are FileNotFoundError
(raised by the retriever when the persisted vector store is absent) and
every other exception; `ask_question` dispatches on the class. -/

/-- Python exception classes distinguished by the query endpoint:
FileNotFoundError versus every other exception. -/
inductive PyError where
  | fileNotFound (msg : String)
  | other (msg : String)
  deriving DecidableEq, Repr

/-- An HTTP-style response: a status code and a body string. -/
structure HTTPResp where
  status : Nat
  body : String
  deriving DecidableEq, Repr

/-! ## Retriever state (backend/retriever.py)

The module keeps lazy singletons `_index` and `_chunks`; `_ensure_loaded`
returns immediately when both are present, otherwise it requires both
persisted artifacts (faiss_index.bin and chunks.pkl) to exist and loads
them, raising FileNotFoundError when either is missing.  The FAISS index
is embedded as a search function from the query string and the clamped k
to the row of returned indices (the query embedding `_embed_query` and
`_index.search` composed); FAISS pads with -1 when it returns fewer than
k neighbors, hence indices are integers. -/

/-- A search function standing for the loaded FAISS index composed with
the query embedding: given the query and k it yields the index row
`idx[0]` of `_index.search`. -/
def SearchFn : Type := String → Int → List Int

/-- The persisted vector store on disk: faiss_index.bin and chunks.pkl,
each present or absent. -/
structure DiskStore where
  indexFile : Option SearchFn
  chunksFile : Option (List String)

/-- The error message raised by `_ensure_loaded` when an artifact is
missing (backend/retriever.py lines 48-52, paths elided). -/
def vectorStoreMissingMsg : String :=
  "Vector store not found. Run the embed step to (re)build the vector store."

/-- Embedding of `_ensure_loaded` (backend/retriever.py lines 40-56):
return the in-memory singletons when both are loaded; otherwise load
both artifacts from disk, and raise FileNotFoundError when either file
is missing. -/
def ensure_loaded (loadedIndex : Option SearchFn)
    (loadedChunks : Option (List String)) (disk : DiskStore) :
    Except PyError (SearchFn × List String) :=
  match loadedIndex, loadedChunks with
  | some i, some c => .ok (i, c)
  | _, _ =>
    match disk.indexFile, disk.chunksFile with
    | some i, some c => .ok (i, c)
    | _, _ => .error (.fileNotFound vectorStoreMissingMsg)

/-- The clamp `k = max(1, min(k, len(_chunks)))` of
backend/retriever.py line 92. -/
def clampK (k : Int) (n : Nat) : Int := max 1 (min k (n : Int))

/-- The list comprehension of backend/retriever.py line 95: keep
`_chunks[i]` exactly for the returned indices with `0 <= i < len(_chunks)`,
in order. -/
def selectedChunks (chunks : List String) (idx : List Int) : List String :=
  idx.filterMap fun i =>
    if h : 0 ≤ i ∧ i.toNat < chunks.length then
      some (chunks.get ⟨i.toNat, h.2⟩)
    else
      none

/-- The separator joining the selected chunks
(backend/retriever.py line 96). -/
def chunkSep : String := "\n\n---\n\n"

/-- Embedding of `retrieve_relevant_chunks` (backend/retriever.py lines
80-96): ensure the store is loaded, return the empty string on an empty
chunk list, otherwise clamp k, search, select the in-range chunks and
join them with the separator. -/
def retrieve_relevant_chunks (loadedIndex : Option SearchFn)
    (loadedChunks : Option (List String)) (disk : DiskStore)
    (query : String) (k : Int) : Except PyError String :=
  match ensure_loaded loadedIndex loadedChunks disk with
  | .error e => .error e
  | .ok (index, chunks) =>
    if chunks = [] then .ok ""
    else
      let kc := clampK k chunks.length
      let idx := index query kc
      .ok (String.intercalate chunkSep (selectedChunks chunks idx))

/-- Embedding of `generate_answer` (backend/llm_answer.py lines 14-26):
retrieve the context, then delegate to the language-model client, whose
failures are exceptions other than FileNotFoundError. -/
def generate_answer (loadedIndex : Option SearchFn)
    (loadedChunks : Option (List String)) (disk : DiskStore)
    (llm : String → Except PyError String) (query : String) :
    Except PyError String :=
  match retrieve_relevant_chunks loadedIndex loadedChunks disk query 4 with
  | .error e => .error e
  | .ok ctx => llm ctx

/-- Embedding of the `ask_question` handler (backend/main.py lines
32-42): 200 with the answer on success, 503 for FileNotFoundError, 500
for every other exception, each carrying the message as detail. -/
def ask_question (result : Except PyError String) : HTTPResp :=
  match result with
  | .ok a => ⟨200, a⟩
  | .error (.fileNotFound m) => ⟨503, m⟩
  | .error (.other m) => ⟨500, m⟩

/-! ## Vector normalization (backend/embed.py lines 6-9 and
backend/retriever.py lines 25-29)

Both files define a `_normalize(mat)` that divides each row by its
Euclidean norm, first replacing zero norms by 1.  numpy float arrays are
idealized as lists of real numbers; norm computation, the `n[n == 0] = 1`
guard and the rowwise division are translated per row. -/

/-- Sum of squares of a row, the value under the square root of
`np.linalg.norm(mat, axis=1)`. -/
def sumSq (v : List ℝ) : ℝ := (v.map fun x => x * x).sum

/-- Euclidean (L2) norm of one row, `np.linalg.norm` on that row. -/
noncomputable def rowNorm (v : List ℝ) : ℝ := Real.sqrt (sumSq v)

/-- One row of `_normalize`: the row norm with the zero guard
`n[n == 0] = 1.0` applied, then elementwise division. -/
noncomputable def normalizeRow (v : List ℝ) : List ℝ :=
  let n := rowNorm v
  let n1 := if n = 0 then 1 else n
  v.map fun x => x / n1

end ODR

namespace ODR.Embed

/-- Embedding of `_normalize` from backend/embed.py lines 6-9: guard
zero norms to 1, then divide each row by its (guarded) norm. -/
noncomputable def _normalize (mat : List (List ℝ)) : List (List ℝ) :=
  mat.map ODR.normalizeRow

end ODR.Embed

namespace ODR.Retrieval

/-- Embedding of `_normalize` from backend/retriever.py lines 25-29,
textually the same computation as the one in backend/embed.py. -/
noncomputable def _normalize (mat : List (List ℝ)) : List (List ℝ) :=
  mat.map ODR.normalizeRow

end ODR.Retrieval

namespace ODR

/-! ## Chunking and index build (backend/embed.py lines 11-49)

`embed_and_store` walks PROCESSED_DIR in `os.listdir` order, skips
non-files, reads each file and extends the chunk list with the splits of
its text; when no chunk was produced it returns before touching the
vector store, otherwise it embeds, normalizes, builds a fresh index and
writes the index file and the chunk file.  The third-party text splitter
and the embedding provider are external collaborators, embedded as
function parameters; the directory listing is embedded as the ordered
list `os.listdir` returns, each entry with its `os.path.isfile` status
and its content. -/

/-- One entry of the PROCESSED_DIR listing: its name in listdir order,
whether it is a regular file, and the text read from it. -/
structure ProcEntry where
  name : String
  isFile : Bool
  content : String
  deriving DecidableEq, Repr

/-- The persisted vector-store pair: faiss_index.bin (the normalized
embedding matrix the fresh index is built from) and chunks.pkl. -/
structure VStore where
  indexFile : Option (List (List ℝ))
  chunksFile : Option (List String)

/-- The whole file-system state the pipeline can see: the processed-text
directory in listdir order, the raw document staging directory, and the
vector store directory. -/
structure SysState where
  processedDir : List ProcEntry
  docsDir : List ProcEntry
  vectorStore : VStore

/-- The chunk-collection loop of backend/embed.py lines 15-23: walk the
listing in order, skip entries that are not regular files, and extend
the chunk list with the splitter's output on each file's content. -/
def collectChunks (split : String → List String) (dir : List ProcEntry) :
    List String :=
  dir.foldl (fun chunks e => if e.isFile then chunks ++ split e.content else chunks) []

/-- The chunk sequence a rebuild produces from a file-system state: it
reads PROCESSED_DIR only. -/
def chunkSequence (split : String → List String) (fs : SysState) : List String :=
  collectChunks split fs.processedDir

/-- Embedding of `embed_and_store` (backend/embed.py lines 11-49):
collect the chunks; if none were produced return with the state intact
(lines 25-27); otherwise embed them, normalize the matrix, and replace
the vector store by the fresh index/chunks pair (lines 38-47). -/
noncomputable def embed_and_store (split : String → List String)
    (embedTexts : List String → List (List ℝ)) (fs : SysState) : SysState :=
  let chunks := chunkSequence split fs
  if chunks = [] then fs
  else
    let X := Embed._normalize (embedTexts chunks)
    { fs with vectorStore := { indexFile := some X, chunksFile := some chunks } }

/-! ## Download with retry (backend/ingest_onedrive.py lines 51-93 and
lines 179-189)

Each download attempt either raises an exception in `download_file` (no
byte reaches the destination) or yields content that is written to the
destination and then integrity-checked; a write that fails the check is
removed before anything else happens.  An attempt is embedded as one
`DlOutcome`; the integrity check is a predicate on the content; the
destination file is an `Option` of the bytes it holds.  The caller in
`fetch_onedrive_folder` removes any existing destination file before the
retry loop starts, so the loop begins with no file present. -/

/-- One download attempt as seen by `_download_with_retry`: either
`download_file` raised, or it returned these bytes. -/
inductive DlOutcome where
  | exc
  | ok (content : List Nat)
  deriving DecidableEq, Repr

/-- Whether an attempt outcome is a download that passes the integrity
check once written. -/
def isGood (integ : List Nat → Bool) : DlOutcome → Bool
  | .exc => false
  | .ok c => integ c

/-- The content of a successful attempt outcome. -/
def contentOf : DlOutcome → Option (List Nat)
  | .exc => none
  | .ok c => some c

/-- Embedding of `_download_with_retry` (backend/ingest_onedrive.py
lines 51-93) over the list of remaining attempt outcomes and the current
destination-file state.  Returns (success flag, final destination-file
state, attempts consumed).  A corrupted write is removed before retrying
or giving up; an exception leaves the destination untouched for that
attempt. -/
def _download_with_retry (integ : List Nat → Bool) :
    List DlOutcome → Option (List Nat) → Bool × Option (List Nat) × Nat
  | [], file => (false, file, 0)
  | .exc :: rest, file =>
    if rest.isEmpty then (false, file, 1)
    else
      let r := _download_with_retry integ rest file
      (r.1, r.2.1, r.2.2 + 1)
  | .ok c :: rest, _file =>
    if integ c then (true, some c, 1)
    else if rest.isEmpty then (false, none, 1)
    else
      let r := _download_with_retry integ rest none
      (r.1, r.2.1, r.2.2 + 1)

/-- Reference behavior written from the specification wording: succeed
at the first attempt whose download passes the integrity check, leaving
exactly that content on disk and stopping there; if no attempt is good,
fail after all attempts with no file on disk. -/
def retrySpec (integ : List Nat → Bool) :
    List DlOutcome → Bool × Option (List Nat) × Nat
  | [] => (false, none, 0)
  | o :: rest =>
    if isGood integ o then (true, contentOf o, 1)
    else
      let r := retrySpec integ rest
      (r.1, r.2.1, r.2.2 + 1)

/-- The per-item download loop of `fetch_onedrive_folder`
(backend/ingest_onedrive.py lines 179-189): each item gets a fresh
3-attempt retry run starting with no destination file, is counted as
downloaded or failed, and processing continues with the next item. -/
def fetch_download_loop (integ : List Nat → Bool)
    (items : List (List DlOutcome)) : Nat × Nat :=
  items.foldl
    (fun stats outs =>
      if (_download_with_retry integ (outs.take 3) none).1 then
        (stats.1 + 1, stats.2)
      else (stats.1, stats.2 + 1))
    (0, 0)

/-! ## Smart extraction (backend/extract_answers_smart.py lines 138-266)

The run derives a key for each input file from its relative path:
`os.path.splitext(rel)[0]` with every backslash and slash replaced by a
double underscore.  A file whose key already has a Processed Text
artifact is skipped before any analysis.  Otherwise the format dispatch
(external extraction libraries) yields either an unknown-extension skip,
an unexpected exception, or a pair of the `should_process` flag and the
extracted text; the artifact is written exactly when the flag is set and
the text has non-whitespace content.  The PROCESSED_DIR contents are
embedded as an association list from key to artifact text. -/

/-- Index of the last occurrence of a character in a character list. -/
def lastIdx (c : Char) : List Char → Option Nat
  | [] => none
  | x :: xs =>
    match lastIdx c xs with
    | some i => some (i + 1)
    | none => if x = c then some 0 else none

/-- An optional index as the -1-defaulted integer Python `str.rfind`
returns. -/
def idxOr (o : Option Nat) : Int :=
  match o with
  | some i => (i : Int)
  | none => -1

/-- Embedding of `os.path.splitext(p)[0]` (posixpath): drop the
extension beginning at the last dot, provided that dot lies after the
last slash and the basename has a non-dot character before it. -/
def splitextBase (s : List Char) : List Char :=
  let si := idxOr (lastIdx '/' s)
  let di := idxOr (lastIdx '.' s)
  if si < di then
    let fnStart := (si + 1).toNat
    if (List.range di.toNat).any
        (fun j => decide (fnStart ≤ j) && decide (s.get? j ≠ some '.')) then
      s.take di.toNat
    else s
  else s

/-- Python `str.replace` with a one-character pattern: substitute the
replacement characters for every occurrence. -/
def replaceChar (c : Char) (repl : List Char) (s : List Char) : List Char :=
  s.flatMap fun x => if x = c then repl else [x]

/-- The key derivation of backend/extract_answers_smart.py line 158:
`os.path.splitext(rel)[0].replace("\\", "__").replace("/", "__")`. -/
def deriveKey (rel : String) : String :=
  String.mk (replaceChar '/' ['_', '_']
    (replaceChar '\\' ['_', '_'] (splitextBase rel.toList)))

/-- What the format dispatch of `extract_smart` does with one input
file: unknown extension (skip count), an unexpected exception (failure
count), or the resulting `should_process` flag and extracted text. -/
inductive ExtractOutcome where
  | unknownType
  | raisedError
  | attempt (shouldProcess : Bool) (text : String)
  deriving DecidableEq, Repr

/-- One input file under DOCS_DIR: its relative path and what extraction
does with it (a fixed attribute of the unchanged file). -/
structure InputFile where
  rel : String
  outcome : ExtractOutcome
  deriving DecidableEq, Repr

/-- The counters `processed_count`, `skipped_count`, `failed_count` of
`extract_smart`. -/
structure ExtractCounts where
  processed : Nat
  skipped : Nat
  failed : Nat
  deriving DecidableEq, Repr

/-- The artifact text an outcome writes, if any: `should_process` set
and the text truthy with truthy strip (backend/extract_answers_smart.py
line 244). -/
def writesText : ExtractOutcome → Option String
  | .attempt true t => if t ≠ "" ∧ t.trim ≠ "" then some t else none
  | _ => none

/-- One iteration of the `extract_smart` loop
(backend/extract_answers_smart.py lines 157-257) over the artifact store
and the counters: skip when the key already has an artifact, otherwise
dispatch, writing the artifact exactly when usable text came back. -/
def extractStep (st : List (String × String) × ExtractCounts)
    (f : InputFile) : List (String × String) × ExtractCounts :=
  let store := st.1
  let c := st.2
  let key := deriveKey f.rel
  if (store.lookup key).isSome then
    (store, { c with skipped := c.skipped + 1 })
  else
    match f.outcome with
    | .unknownType => (store, { c with skipped := c.skipped + 1 })
    | .raisedError => (store, { c with failed := c.failed + 1 })
    | .attempt sp t =>
      if sp ∧ t ≠ "" ∧ t.trim ≠ "" then
        (store ++ [(key, t)], { c with processed := c.processed + 1 })
      else
        (store, { c with failed := c.failed + 1 })

/-- Embedding of `extract_smart` (backend/extract_answers_smart.py
lines 138-266): fold the per-file step over the walk order of DOCS_DIR,
starting from the existing PROCESSED_DIR artifacts and zeroed
counters. -/
def extract_smart (store : List (String × String)) (files : List InputFile) :
    List (String × String) × ExtractCounts :=
  files.foldl extractStep (store, ⟨0, 0, 0⟩)

/-! ## Recursive folder listing (backend/onedrive_client.py lines
108-149)

A remote folder's contents are a list of entries, each a file or a
subfolder; a subfolder carries whether listing it succeeds (the
`_list_folder_single` call for it may raise, and the parent catches the
exception from the whole recursive call on that subfolder and moves on
to the next sibling).  Each emitted item is (name, relative path). -/

/-- One entry of a remote folder listing. -/
inductive Entry where
  | file (name : String)
  | folder (name : String) (listable : Bool) (children : List Entry)

/-- The relative-path computation of backend/onedrive_client.py lines
122-125 and line 138: name alone at the top, otherwise
current-path/name. -/
def relOf (cur name : String) : String :=
  if cur = "" then name else cur ++ "/" ++ name

/-- The partition-and-emit pass over one folder's entries: the file
items of this folder, each with its computed relative path, in listing
order. -/
def fileItems (cur : String) (ents : List Entry) : List (String × String) :=
  ents.filterMap fun e =>
    match e with
    | .file n => some (n, relOf cur n)
    | .folder _ _ _ => none

mutual

/-- Embedding of `_list_folder_recursive` (backend/onedrive_client.py
lines 108-149) below a successfully listed folder: emit all files of the
current folder first, then the items of each subfolder in order. -/
def _list_folder_recursive (cur : String) (ents : List Entry) :
    List (String × String) :=
  fileItems cur ents ++ subfolderItems cur ents

/-- The subfolder loop of backend/onedrive_client.py lines 136-147: for
each subfolder in order, append the recursive listing, except that a
subfolder whose listing raises contributes nothing (the exception is
caught and the loop continues). -/
def subfolderItems (cur : String) : List Entry → List (String × String)
  | [] => []
  | .file _ :: rest => subfolderItems cur rest
  | .folder n listable ch :: rest =>
    (if listable then _list_folder_recursive (relOf cur n) ch else []) ++
      subfolderItems cur rest

end

/-! ## Authenticated requests (backend/onedrive_client.py lines 17-50)

The bearer credential cache `_cached_headers` and the fresh-credential
supply of auth.py are embedded as an `AuthState`: the cached token if
any, and the identifier the next freshly acquired token will get.  The
network is a function from method and token to a status code.  The
embedding returns the final status, the final credential state, and the
list of tokens actually sent, one per request issued. -/

/-- The credential cache state: `_cached_headers` (the cached bearer
token, if any) together with the auth module's supply of fresh
tokens. -/
structure AuthState where
  cached : Option Nat
  nextId : Nat
  deriving DecidableEq, Repr

/-- Embedding of `_get_headers` (backend/onedrive_client.py lines 9-15):
return the cached token, or acquire a fresh one and cache it. -/
def _get_headers (s : AuthState) : Nat × AuthState :=
  match s.cached with
  | some t => (t, s)
  | none => (s.nextId, { cached := some s.nextId, nextId := s.nextId + 1 })

/-- The method dispatch of backend/onedrive_client.py lines 25-32: GET,
PUT and POST are sent; anything else raises ValueError. -/
def supportedMethod (m : String) : Bool :=
  m.toUpper = "GET" || m.toUpper = "PUT" || m.toUpper = "POST"

/-- Embedding of `_make_authenticated_request` (backend/onedrive_client.py
lines 17-50): send once with the (possibly cached) token; on status 401
clear the credential caches, acquire a fresh token and send exactly once
more, returning that second response; on any other status return the
first response.  The third component lists the token of every request
issued, in order. -/
def _make_authenticated_request (send : String → Nat → Nat) (m : String)
    (s : AuthState) : Except String (Nat × AuthState × List Nat) :=
  if supportedMethod m then
    if send m (_get_headers s).1 = 401 then
      .ok (send m (_get_headers { (_get_headers s).2 with cached := none }).1,
        (_get_headers { (_get_headers s).2 with cached := none }).2,
        [(_get_headers s).1,
          (_get_headers { (_get_headers s).2 with cached := none }).1])
    else
      .ok (send m (_get_headers s).1, (_get_headers s).2, [(_get_headers s).1])
  else
    .error ("Unsupported HTTP method: " ++ m)

end ODR

namespace ODR

/-! ## Theorems -/

/-- Every selected chunk is an element of the chunk list. -/
theorem selectedChunks_mem (chunks : List String) (idx : List Int) :
    ∀ s ∈ selectedChunks chunks idx, s ∈ chunks := by
  intro s hs
  rw [selectedChunks, List.mem_filterMap] at hs
  obtain ⟨i, _, hf⟩ := hs
  by_cases h : 0 ≤ i ∧ i.toNat < chunks.length
  · simp only [dif_pos h, Option.some.injEq] at hf
    exact hf ▸ chunks.get_mem _ _
  · simp [dif_neg h] at hf

/-- Out-of-range indices contribute nothing to the selection. -/
theorem selectedChunks_filter (chunks : List String) (idx : List Int) :
    selectedChunks chunks idx =
      selectedChunks chunks
        (idx.filter fun i => decide (0 ≤ i ∧ i.toNat < chunks.length)) := by
  induction idx with
  | nil => rfl
  | cons i rest ih =>
    by_cases h : 0 ≤ i ∧ i.toNat < chunks.length
    · simp [selectedChunks, List.filter_cons, h] at ih ⊢
      exact ih
    · simp [selectedChunks, List.filter_cons, h] at ih ⊢
      exact ih

/-- The selection never has more elements than the index row. -/
theorem selectedChunks_length_le (chunks : List String) (idx : List Int) :
    (selectedChunks chunks idx).length ≤ idx.length :=
  List.length_filterMap_le _ idx

/-- C9: in retrieve_relevant_chunks, chunk texts are selected only for
search-result indices i with 0 <= i < len(chunks); any out-of-range
index (such as a -1 placeholder) is silently discarded rather than
causing an out-of-bounds access, so the context concatenates at most as
many valid chunks as the search returned indices. -/
theorem retrieve_selects_only_in_range (chunks : List String) (idx : List Int) :
    selectedChunks chunks idx =
      selectedChunks chunks
        (idx.filter fun i => decide (0 ≤ i ∧ i.toNat < chunks.length)) ∧
    (selectedChunks chunks idx).length ≤ idx.length ∧
    (selectedChunks chunks idx).all (fun s => chunks.contains s) = true := by
  refine ⟨selectedChunks_filter chunks idx, selectedChunks_length_le chunks idx, ?_⟩
  rw [List.all_eq_true]
  intro s hs
  have := selectedChunks_mem chunks idx s hs
  simpa [List.contains] using this

/-- C1: for every loaded index and every query, retrieve_relevant_chunks
clamps the requested k into [1, chunk_count] before searching, so a call
whose search row has the clamped length returns at most chunk_count
chunks; and on an empty loaded chunk sequence it returns the empty
string without raising. -/
theorem retrieve_clamps_k (index : SearchFn) (chunks : List String)
    (disk : DiskStore) (q : String) (k : Int) :
    (chunks = [] →
      retrieve_relevant_chunks (some index) (some chunks) disk q k = .ok "") ∧
    (chunks ≠ [] →
      1 ≤ clampK k chunks.length ∧
      clampK k chunks.length ≤ (chunks.length : Int) ∧
      retrieve_relevant_chunks (some index) (some chunks) disk q k =
        .ok (String.intercalate chunkSep
          (selectedChunks chunks (index q (clampK k chunks.length)))) ∧
      ((index q (clampK k chunks.length)).length =
          (clampK k chunks.length).toNat →
        (selectedChunks chunks
            (index q (clampK k chunks.length))).length ≤ chunks.length)) := by
  constructor
  · intro h
    simp [retrieve_relevant_chunks, ensure_loaded, h]
  · intro h
    have hlen : 1 ≤ chunks.length := List.length_pos.mpr h
    have hcast : (1 : Int) ≤ (chunks.length : Int) := by exact_mod_cast hlen
    have h1 : 1 ≤ clampK k chunks.length := le_max_left _ _
    have h2 : clampK k chunks.length ≤ (chunks.length : Int) :=
      max_le hcast (min_le_right _ _)
    refine ⟨h1, h2, ?_, ?_⟩
    · simp [retrieve_relevant_chunks, ensure_loaded, h]
    · intro hrow
      have hle := selectedChunks_length_le chunks (index q (clampK k chunks.length))
      rw [hrow] at hle
      exact hle.trans (Int.toNat_le.mpr h2)

/-- C2: a missing persisted index file or chunk file makes loading fail
with the distinct recoverable vector-store-missing error, which the
query endpoint maps to 503, while every other exception maps to 500 and
success to 200; a question asked before any index has been built gets
503 with the vector-store-missing detail, never 500. -/
theorem ask_maps_index_not_built_to_503 (disk : DiskStore)
    (llm : String → Except PyError String) (q m a : String) :
    (disk.indexFile = none ∨ disk.chunksFile = none →
      ensure_loaded none none disk =
        .error (.fileNotFound vectorStoreMissingMsg) ∧
      ask_question (generate_answer none none disk llm q) =
        ⟨503, vectorStoreMissingMsg⟩) ∧
    ask_question (.error (.fileNotFound m)) = ⟨503, m⟩ ∧
    ask_question (.error (.other m)) = ⟨500, m⟩ ∧
    ask_question (.ok a) = ⟨200, a⟩ := by
  refine ⟨?_, rfl, rfl, rfl⟩
  intro h
  obtain ⟨di, dc⟩ := disk
  have hload : ensure_loaded none none ⟨di, dc⟩ =
      .error (.fileNotFound vectorStoreMissingMsg) := by
    rcases h with h | h <;> subst h
    · rfl
    · cases di <;> rfl
  refine ⟨hload, ?_⟩
  simp [generate_answer, retrieve_relevant_chunks, hload, ask_question]

/-- A sum of squares is nonnegative. -/
theorem sumSq_nonneg (v : List ℝ) : 0 ≤ sumSq v := by
  apply List.sum_nonneg
  intro x hx
  rw [List.mem_map] at hx
  obtain ⟨y, _, rfl⟩ := hx
  exact mul_self_nonneg y

/-- Dividing every component by c divides the sum of squares by c * c. -/
theorem sumSq_map_div (v : List ℝ) (c : ℝ) :
    sumSq (v.map fun x => x / c) = sumSq v / (c * c) := by
  induction v with
  | nil => simp [sumSq]
  | cons x xs ih =>
    simp only [sumSq, List.map_cons, List.sum_cons] at ih ⊢
    rw [ih, div_mul_div_comm, ← add_div]

/-- A row of zero norm is returned unchanged by normalizeRow. -/
theorem normalizeRow_zero (v : List ℝ) (h : rowNorm v = 0) :
    normalizeRow v = v := by
  simp [normalizeRow, h]

/-- A row of nonzero norm has unit norm after normalizeRow. -/
theorem normalizeRow_unit (v : List ℝ) (h : rowNorm v ≠ 0) :
    rowNorm (normalizeRow v) = 1 := by
  have hnn : 0 ≤ rowNorm v := Real.sqrt_nonneg _
  have hmul : rowNorm v * rowNorm v = sumSq v :=
    Real.mul_self_sqrt (sumSq_nonneg v)
  have hne : rowNorm v * rowNorm v ≠ 0 := mul_ne_zero h h
  rw [normalizeRow]
  simp only [if_neg h]
  rw [rowNorm, sumSq_map_div, ← hmul, div_self hne, Real.sqrt_one]

/-- C3: normalization divides each row by its Euclidean norm, so a row
with nonzero norm has unit L2 norm afterwards while a zero-norm row is
left exactly unchanged, and the ingestion-side and query-side
normalization functions are one and the same map over rows. -/
theorem normalize_rows_unit_or_unchanged (v : List ℝ) (m : List (List ℝ)) :
    (rowNorm v = 0 ∧ normalizeRow v = v ∨
      rowNorm v ≠ 0 ∧ rowNorm (normalizeRow v) = 1) ∧
    Embed._normalize m = Retrieval._normalize m ∧
    Embed._normalize m = m.map normalizeRow := by
  refine ⟨?_, rfl, rfl⟩
  by_cases h : rowNorm v = 0
  · exact Or.inl ⟨h, normalizeRow_zero v h⟩
  · exact Or.inr ⟨h, normalizeRow_unit v h⟩

/-- Starting with no destination file, the retry loop computes exactly
the first-good-attempt reference behavior. -/
theorem download_retry_eq_spec (integ : List Nat → Bool)
    (outs : List DlOutcome) :
    _download_with_retry integ outs none = retrySpec integ outs := by
  induction outs with
  | nil => rfl
  | cons o rest ih =>
    cases o with
    | exc =>
      cases rest with
      | nil => rfl
      | cons o2 rest2 =>
        simp only [_download_with_retry, retrySpec, isGood, List.isEmpty_cons,
          Bool.false_eq_true, if_false]
        rw [ih]
        rfl
    | ok c =>
      by_cases hc : integ c = true
      · simp [_download_with_retry, retrySpec, isGood, contentOf, hc]
      · cases rest with
        | nil => simp [_download_with_retry, retrySpec, isGood, contentOf, hc]
        | cons o2 rest2 =>
          simp only [_download_with_retry, retrySpec, isGood, hc,
            List.isEmpty_cons, Bool.false_eq_true, if_false]
          rw [ih]
          rfl

/-- The reference behavior consumes at most as many attempts as it is
given. -/
theorem retrySpec_attempts_le (integ : List Nat → Bool)
    (outs : List DlOutcome) : (retrySpec integ outs).2.2 ≤ outs.length := by
  induction outs with
  | nil => simp [retrySpec]
  | cons o rest ih =>
    by_cases h : isGood integ o = true
    · simp [retrySpec, h]
    · simp only [retrySpec, h, Bool.false_eq_true, if_false, List.length_cons]
      omega

/-- Every item passed to the download loop is counted exactly once, as
downloaded or as failed. -/
theorem fetch_loop_counts_all (integ : List Nat → Bool)
    (items : List (List DlOutcome)) :
    (fetch_download_loop integ items).1 + (fetch_download_loop integ items).2 =
      items.length := by
  suffices h : ∀ (l : List (List DlOutcome)) (a b : Nat),
      (l.foldl (fun stats outs =>
        if (_download_with_retry integ (outs.take 3) none).1 then
          (stats.1 + 1, stats.2)
        else (stats.1, stats.2 + 1)) (a, b)).1 +
      (l.foldl (fun stats outs =>
        if (_download_with_retry integ (outs.take 3) none).1 then
          (stats.1 + 1, stats.2)
        else (stats.1, stats.2 + 1)) (a, b)).2 = a + b + l.length by
    simpa [fetch_download_loop] using h items 0 0
  intro l
  induction l with
  | nil => intro a b; simp
  | cons outs rest ih =>
    intro a b
    by_cases h : (_download_with_retry integ (outs.take 3) none).1 = true
    · simp only [List.foldl_cons, h, if_true, List.length_cons]
      rw [ih]
      omega
    · simp only [List.foldl_cons, h, Bool.false_eq_true, if_false,
        List.length_cons]
      rw [ih]
      omega

/-- C4: each item is attempted at most 3 times; the loop stops at the
first attempt whose written file passes the integrity check, leaving
exactly that content; a corrupted write is removed before the next
attempt; when all 3 attempts fail the destination holds no file, the
item counts as failed, and the loop goes on so that every item ends up
counted either downloaded or failed. -/
theorem download_retry_bounded_and_clean (integ : List Nat → Bool)
    (outs : List DlOutcome) (items : List (List DlOutcome)) :
    _download_with_retry integ (outs.take 3) none =
      retrySpec integ (outs.take 3) ∧
    (_download_with_retry integ (outs.take 3) none).2.2 ≤ 3 ∧
    (fetch_download_loop integ items).1 + (fetch_download_loop integ items).2 =
      items.length := by
  refine ⟨download_retry_eq_spec integ (outs.take 3), ?_,
    fetch_loop_counts_all integ items⟩
  rw [download_retry_eq_spec integ (outs.take 3)]
  have h := retrySpec_attempts_le integ (outs.take 3)
  have h3 : (outs.take 3).length ≤ 3 := by
    simp
  omega

/-- A key found in the left part of an appended store is still found in
the whole store. -/
theorem lookup_append_isSome (k : String) (s t : List (String × String))
    (h : (List.lookup k s).isSome = true) :
    (List.lookup k (s ++ t)).isSome = true := by
  induction s with
  | nil => simp [List.lookup] at h
  | cons p rest ih =>
    obtain ⟨k1, v1⟩ := p
    rw [List.cons_append]
    cases hk : (k == k1) with
    | true => simp [List.lookup, hk]
    | false =>
      simp only [List.lookup, hk] at h ⊢
      exact ih h

/-- Appending an artifact for a key makes that key found. -/
theorem lookup_append_singleton (k v : String) (s : List (String × String)) :
    (List.lookup k (s ++ [(k, v)])).isSome = true := by
  induction s with
  | nil => simp [List.lookup]
  | cons p rest ih =>
    obtain ⟨k1, v1⟩ := p
    rw [List.cons_append]
    cases hk : (k == k1) with
    | true => simp [List.lookup, hk]
    | false =>
      simp only [List.lookup, hk]
      exact ih

/-- A key already holding an artifact makes the extraction step a pure
skip: the store is untouched and only the skip counter moves. -/
theorem extractStep_skip (s : List (String × String)) (c : ExtractCounts)
    (f : InputFile) (hs : (List.lookup (deriveKey f.rel) s).isSome = true) :
    extractStep (s, c) f = (s, { c with skipped := c.skipped + 1 }) := by
  simp [extractStep, hs]

/-- One extraction step never loses an existing artifact key. -/
theorem extractStep_lookup_mono (s : List (String × String))
    (c : ExtractCounts) (f : InputFile) (k : String)
    (h : (List.lookup k s).isSome = true) :
    (List.lookup k (extractStep (s, c) f).1).isSome = true := by
  rw [extractStep]
  by_cases hs : (List.lookup (deriveKey f.rel) s).isSome = true
  · simpa [hs] using h
  · cases f.outcome with
    | unknownType => simpa [hs] using h
    | raisedError => simpa [hs] using h
    | attempt sp t =>
      simp only [hs, if_false]
      by_cases hc : sp = true ∧ t ≠ "" ∧ t.trim ≠ ""
      · rw [if_pos hc]
        exact lookup_append_isSome k s _ h
      · rw [if_neg hc]
        exact h

/-- The extraction fold never loses an existing artifact key. -/
theorem extract_fold_lookup_mono (files : List InputFile) :
    ∀ (s : List (String × String)) (c : ExtractCounts) (k : String),
      (List.lookup k s).isSome = true →
      (List.lookup k (List.foldl extractStep (s, c) files).1).isSome = true := by
  induction files with
  | nil =>
    intro s c k h
    simpa using h
  | cons f rest ih =>
    intro s c k h
    rw [List.foldl_cons]
    exact ih (extractStep (s, c) f).1 (extractStep (s, c) f).2 k
      (extractStep_lookup_mono s c f k h)

/-- When the key is free and the outcome carries usable text, the step
writes exactly that artifact and counts the file processed. -/
theorem extractStep_writes (s : List (String × String)) (c : ExtractCounts)
    (f : InputFile) (t : String)
    (hs : ¬(List.lookup (deriveKey f.rel) s).isSome = true)
    (hw : writesText f.outcome = some t) :
    extractStep (s, c) f =
      (s ++ [(deriveKey f.rel, t)],
        { c with processed := c.processed + 1 }) := by
  obtain ⟨rel, outcome⟩ := f
  cases outcome with
  | unknownType => simp [writesText] at hw
  | raisedError => simp [writesText] at hw
  | attempt sp t2 =>
    cases sp with
    | false => simp [writesText] at hw
    | true =>
      by_cases hc : t2 ≠ "" ∧ t2.trim ≠ ""
      · rw [writesText] at hw
        simp only [if_pos hc, Option.some.injEq] at hw
        subst hw
        simp [extractStep, hs, hc]
      · rw [writesText] at hw
        simp [if_neg hc] at hw

/-- When the outcome carries no usable text, the step leaves the store
untouched and the processed counter unchanged. -/
theorem extractStep_no_write (s : List (String × String)) (c : ExtractCounts)
    (f : InputFile) (hw : writesText f.outcome = none) :
    (extractStep (s, c) f).1 = s ∧
    (extractStep (s, c) f).2.processed = c.processed := by
  obtain ⟨rel, outcome⟩ := f
  by_cases hs : (List.lookup (deriveKey rel) s).isSome = true
  · simp [extractStep, hs]
  · cases outcome with
    | unknownType => simp [extractStep, hs]
    | raisedError => simp [extractStep, hs]
    | attempt sp t =>
      cases sp with
      | false => simp [extractStep, hs]
      | true =>
        rw [writesText] at hw
        by_cases hc : t ≠ "" ∧ t.trim ≠ ""
        · simp [if_pos hc] at hw
        · simp [extractStep, hs, hc]

/-- After one extraction run, each input file either has its key in the
resulting store or its outcome writes nothing. -/
theorem extract_fold_covers (files : List InputFile) :
    ∀ (s : List (String × String)) (c : ExtractCounts) (f : InputFile),
      f ∈ files →
      (List.lookup (deriveKey f.rel)
        (List.foldl extractStep (s, c) files).1).isSome = true ∨
      writesText f.outcome = none := by
  induction files with
  | nil =>
    intro s c f h
    simp at h
  | cons g rest ih =>
    intro s c f hf
    rcases List.mem_cons.mp hf with rfl | htail
    · by_cases hw : writesText f.outcome = none
      · exact Or.inr hw
      · left
        obtain ⟨t, ht⟩ := Option.ne_none_iff_exists'.mp hw
        rw [List.foldl_cons]
        by_cases hs : (List.lookup (deriveKey f.rel) s).isSome = true
        · exact extract_fold_lookup_mono rest _ _ _
            (extractStep_lookup_mono s c f _ hs)
        · have hstep := extractStep_writes s c f t hs ht
          rw [hstep]
          exact extract_fold_lookup_mono rest _ _ _
            (lookup_append_singleton (deriveKey f.rel) t s)
    · rw [List.foldl_cons]
      exact ih (extractStep (s, c) g).1 (extractStep (s, c) g).2 f htail

/-- A run over files that are all covered (key present or nothing to
write) leaves the store identical and writes zero new artifacts. -/
theorem extract_fold_no_new (files : List InputFile) :
    ∀ (s : List (String × String)) (c : ExtractCounts),
      (∀ f ∈ files,
        (List.lookup (deriveKey f.rel) s).isSome = true ∨
        writesText f.outcome = none) →
      (List.foldl extractStep (s, c) files).1 = s ∧
      (List.foldl extractStep (s, c) files).2.processed = c.processed := by
  induction files with
  | nil =>
    intro s c _
    simp
  | cons f rest ih =>
    intro s c h
    have hf := h f (List.mem_cons_self f rest)
    have hstore : (extractStep (s, c) f).1 = s ∧
        (extractStep (s, c) f).2.processed = c.processed := by
      rcases hf with hf | hf
      · rw [extractStep_skip s c f hf]
        exact ⟨rfl, rfl⟩
      · exact extractStep_no_write s c f hf
    rw [List.foldl_cons]
    have htail := ih (extractStep (s, c) f).1 (extractStep (s, c) f).2
      (by
        rw [hstore.1]
        intro g hg
        exact h g (List.mem_cons_of_mem f hg))
    refine ⟨htail.1.trans hstore.1, htail.2.trans hstore.2⟩

/-- C5: a file whose derived key already has a Processed Text artifact
is skipped entirely (no extraction, the artifact untouched), and a
second extraction run over the same input set writes zero new artifacts
and leaves the artifact store byte-identical. -/
theorem extract_smart_idempotent (store : List (String × String))
    (files : List InputFile) (s : List (String × String))
    (c : ExtractCounts) (f : InputFile) :
    ((List.lookup (deriveKey f.rel) s).isSome = true →
      extractStep (s, c) f = (s, { c with skipped := c.skipped + 1 })) ∧
    (extract_smart (extract_smart store files).1 files).1 =
      (extract_smart store files).1 ∧
    (extract_smart (extract_smart store files).1 files).2.processed = 0 := by
  have hcov : ∀ g ∈ files,
      (List.lookup (deriveKey g.rel) (extract_smart store files).1).isSome =
        true ∨
      writesText g.outcome = none :=
    fun g hg => extract_fold_covers files store ⟨0, 0, 0⟩ g hg
  have h2 := extract_fold_no_new files (extract_smart store files).1
    ⟨0, 0, 0⟩ hcov
  exact ⟨fun hs => extractStep_skip s c f hs, h2.1, h2.2⟩

/-- The chunk-collection fold equals the ordered concatenation of the
splits of each regular file, in listing order. -/
theorem collectChunks_eq_flatMap (split : String → List String)
    (dir : List ProcEntry) :
    collectChunks split dir =
      dir.flatMap fun e => if e.isFile then split e.content else [] := by
  suffices h : ∀ (l : List ProcEntry) (a : List String),
      l.foldl (fun chunks e =>
        if e.isFile then chunks ++ split e.content else chunks) a =
        a ++ l.flatMap fun e => if e.isFile then split e.content else [] by
    simpa [collectChunks] using h dir []
  intro l
  induction l with
  | nil =>
    intro a
    simp
  | cons e rest ih =>
    intro a
    by_cases he : e.isFile = true
    · simp [he, ih, List.flatMap_cons]
    · simp [he, ih, List.flatMap_cons]

/-- C6: chunking is deterministic: the ordered chunk sequence a rebuild
produces is a function of the Processed Text directory alone (two system
states agreeing on that directory yield the identical sequence), namely
the concatenation, in the deterministic walk order, of the splitter
output on each file. -/
theorem chunk_sequence_deterministic (split : String → List String)
    (fs1 fs2 : SysState) :
    (fs1.processedDir = fs2.processedDir →
      chunkSequence split fs1 = chunkSequence split fs2) ∧
    chunkSequence split fs1 =
      fs1.processedDir.flatMap
        (fun e => if e.isFile then split e.content else []) := by
  constructor
  · intro h
    rw [chunkSequence, chunkSequence, h]
  · exact collectChunks_eq_flatMap split fs1.processedDir

/-- C10: a rebuild that collects zero chunks returns before touching the
vector store, so both persisted artifacts stay exactly as they were; the
fresh index/chunks pair replaces them only when at least one chunk was
produced, and then both are replaced together. -/
theorem embed_and_store_frame (split : String → List String)
    (embedTexts : List String → List (List ℝ)) (fs : SysState) :
    (chunkSequence split fs = [] →
      embed_and_store split embedTexts fs = fs) ∧
    (chunkSequence split fs ≠ [] →
      (embed_and_store split embedTexts fs).vectorStore.indexFile =
        some (Embed._normalize (embedTexts (chunkSequence split fs))) ∧
      (embed_and_store split embedTexts fs).vectorStore.chunksFile =
        some (chunkSequence split fs) ∧
      (embed_and_store split embedTexts fs).processedDir = fs.processedDir ∧
      (embed_and_store split embedTexts fs).docsDir = fs.docsDir) := by
  constructor
  · intro h
    rw [embed_and_store, if_pos h]
  · intro h
    rw [embed_and_store, if_neg h]
    exact ⟨rfl, rfl, rfl, rfl⟩

/-- The emitted file items are exactly the file names of the folder, in
listing order, each paired with its computed relative path. -/
theorem fileItems_eq_map (cur : String) (ents : List Entry) :
    fileItems cur ents = (ents.filterMap fun e =>
      match e with
      | Entry.file nm => some nm
      | Entry.folder _ _ _ => none).map fun nm => (nm, relOf cur nm) := by
  induction ents with
  | nil => rfl
  | cons e rest ih =>
    cases e with
    | file nm =>
      simp only [fileItems, List.filterMap_cons] at ih ⊢
      simp [ih]
    | folder nm listable ch =>
      simp only [fileItems, List.filterMap_cons] at ih ⊢
      simp [ih]

/-- The subfolder loop distributes over concatenated entry lists. -/
theorem subfolderItems_append (cur : String) (l1 l2 : List Entry) :
    subfolderItems cur (l1 ++ l2) =
      subfolderItems cur l1 ++ subfolderItems cur l2 := by
  induction l1 with
  | nil => simp [subfolderItems]
  | cons e rest ih =>
    cases e with
    | file n => simpa [subfolderItems] using ih
    | folder n listable ch => simp [subfolderItems, ih]

/-- C7: recursive listing is depth-first: all files of a folder are
emitted, each with its computed relative path, before any item of its
subfolders; the subfolders are traversed in order; and a subfolder whose
traversal raises contributes nothing while its remaining siblings still
contribute all their items. -/
theorem listing_depth_first (cur n : String) (ents pre post ch : List Entry) :
    _list_folder_recursive cur ents =
      fileItems cur ents ++ subfolderItems cur ents ∧
    fileItems cur ents = (ents.filterMap fun e =>
      match e with
      | .file nm => some nm
      | .folder _ _ _ => none).map (fun nm => (nm, relOf cur nm)) ∧
    subfolderItems cur (pre ++ Entry.folder n false ch :: post) =
      subfolderItems cur pre ++ subfolderItems cur post ∧
    subfolderItems cur (pre ++ Entry.folder n true ch :: post) =
      subfolderItems cur pre ++ _list_folder_recursive (relOf cur n) ch ++
        subfolderItems cur post := by
  refine ⟨by rw [_list_folder_recursive], fileItems_eq_map cur ents, ?_, ?_⟩
  · rw [subfolderItems_append]
    simp [subfolderItems]
  · rw [subfolderItems_append]
    simp [subfolderItems]

/-- C8: for every authenticated GET, PUT or POST, a 401 response
invalidates the cached credential and the request is retried exactly
once with a freshly obtained credential, whose response is returned; any
other status is returned directly from the single request; an
unsupported method raises before any request; and no call ever issues
more than two requests. -/
theorem refresh_on_401_once (send : String → Nat → Nat) (m : String)
    (s : AuthState) :
    (supportedMethod m = false →
      _make_authenticated_request send m s =
        .error ("Unsupported HTTP method: " ++ m)) ∧
    (supportedMethod m = true →
      (send m (_get_headers s).1 = 401 →
        _make_authenticated_request send m s =
          .ok (send m (_get_headers s).2.nextId,
            ⟨some (_get_headers s).2.nextId, (_get_headers s).2.nextId + 1⟩,
            [(_get_headers s).1, (_get_headers s).2.nextId])) ∧
      (send m (_get_headers s).1 ≠ 401 →
        _make_authenticated_request send m s =
          .ok (send m (_get_headers s).1, (_get_headers s).2,
            [(_get_headers s).1]))) ∧
    (∀ (r : Nat) (st : AuthState) (toks : List Nat),
      _make_authenticated_request send m s = .ok (r, st, toks) →
      toks.length ≤ 2) := by
  refine ⟨?_, ?_, ?_⟩
  · intro h
    rw [_make_authenticated_request, if_neg (by simp [h])]
  · intro hm
    constructor
    · intro h401
      rw [_make_authenticated_request, if_pos hm, if_pos h401]
      rfl
    · intro h401
      rw [_make_authenticated_request, if_pos hm, if_neg h401]
  · intro r st toks h
    rw [_make_authenticated_request] at h
    by_cases hm : supportedMethod m = true
    · rw [if_pos hm] at h
      by_cases h4 : send m (_get_headers s).1 = 401
      · rw [if_pos h4] at h
        cases h
        simp
      · rw [if_neg h4] at h
        cases h
        simp
    · rw [if_neg hm] at h
      simp at h

end ODR
